import Mathlib

/-
Shallow embedding of the SliceWise bandit backend (src/backend/app.py).

Modelling conventions:
- Python floats are modelled as ℚ; `math.sqrt` and `math.log` are abstract
  functions carried by the context.
- `random.Random` is modelled as an abstract deterministic state machine:
  each method maps a generator state to a value and a successor state, so a
  fixed seed determines the whole stream.  The two properties the code
  relies on (`random()` lies in `[0,1)`, `choice` returns a member of its
  argument) are fields of the context.
- Python exceptions are modelled with `Except String`; a `try/except` block
  corresponds to a `match` on the `Except` value.
- Python dicts keyed by strings are association lists with insert-or-replace
  update, which preserves insertion order exactly like `dict`.
-/

namespace Bandit

/-- Abstract deterministic model of `random.Random` over generator states `σ`,
together with the real-valued math functions the code uses.  `seedOf` models
`random.Random(seed)`. -/
structure PyCtx (σ : Type) where
  seedOf : Option Int → σ
  random : σ → ℚ × σ
  randrange : ℕ → σ → ℕ × σ
  choice : List ℕ → σ → ℕ × σ
  betavariate : ℕ → ℕ → σ → ℚ × σ
  uniform : ℚ → ℚ → σ → ℚ × σ
  gauss : ℚ → ℚ → σ → ℚ × σ
  sqrtQ : ℚ → ℚ
  logQ : ℚ → ℚ
  random_nonneg : ∀ s, 0 ≤ (random s).1
  random_lt_one : ∀ s, (random s).1 < 1
  choice_mem : ∀ l s, l ≠ [] → (choice l s).1 ∈ l

/-- Python `max` over a nonempty list (the code never applies it to an empty
list, since `n_actions ≥ 2`). -/
def pyMax : List ℚ → ℚ
  | [] => 0
  | x :: xs => xs.foldl max x

/-- Models `[i for i, q in enumerate(qs) if q == max_q]`. -/
def argmaxIdx (qs : List ℚ) : List ℕ :=
  (qs.enum.filter (fun p => decide (p.2 = pyMax qs))).map (fun p => p.1)

/-- Shared incremental-mean update of the built-in policies:
`counts[action] += 1; n = counts[action]; q[action] += (r - q[action]) / n`. -/
def qvUpdate (q_values : List ℚ) (counts : List ℕ) (action : ℕ) (reward : ℚ) :
    List ℚ × List ℕ :=
  let counts1 := counts.set action (counts.getD action 0 + 1)
  let n := counts1.getD action 0
  let q1 := q_values.set action
    (q_values.getD action 0 + (reward - q_values.getD action 0) / (n : ℚ))
  (q1, counts1)

/-- State of the `Greedy` policy. -/
structure GreedyState (σ : Type) where
  q_values : List ℚ
  counts : List ℕ
  rng : σ

def greedyInit (C : PyCtx σ) (n : ℕ) (seed : Option Int) : GreedyState σ :=
  { q_values := List.replicate n 0, counts := List.replicate n 0,
    rng := C.seedOf seed }

/-- `Greedy.select_action`. -/
def greedySelect (C : PyCtx σ) (st : GreedyState σ) : ℕ × GreedyState σ :=
  let candidates := argmaxIdx st.q_values
  let (a, s1) := C.choice candidates st.rng
  (a, { st with rng := s1 })

/-- `Greedy.update`. -/
def greedyUpdate (st : GreedyState σ) (action : ℕ) (reward : ℚ) : GreedyState σ :=
  let (q1, c1) := qvUpdate st.q_values st.counts action reward
  { st with q_values := q1, counts := c1 }

/-- State of the `EpsilonGreedy` policy. -/
structure EpsilonGreedyState (σ : Type) where
  n_actions : ℕ
  epsilon : ℚ
  q_values : List ℚ
  counts : List ℕ
  rng : σ

def epsilonGreedyInit (C : PyCtx σ) (n : ℕ) (seed : Option Int) (epsilon : ℚ) :
    EpsilonGreedyState σ :=
  { n_actions := n, epsilon := epsilon, q_values := List.replicate n 0,
    counts := List.replicate n 0, rng := C.seedOf seed }

/-- `EpsilonGreedy.select_action`: the ε-test draw happens on every call,
before deciding which branch to take. -/
def epsilonGreedySelect (C : PyCtx σ) (st : EpsilonGreedyState σ) :
    ℕ × EpsilonGreedyState σ :=
  let (x, s1) := C.random st.rng
  if x < st.epsilon then
    let (a, s2) := C.randrange st.n_actions s1
    (a, { st with rng := s2 })
  else
    let (a, s2) := C.choice (argmaxIdx st.q_values) s1
    (a, { st with rng := s2 })

/-- `EpsilonGreedy.update`. -/
def epsilonGreedyUpdate (st : EpsilonGreedyState σ) (action : ℕ) (reward : ℚ) :
    EpsilonGreedyState σ :=
  let (q1, c1) := qvUpdate st.q_values st.counts action reward
  { st with q_values := q1, counts := c1 }

/-- State of the `UCB1` policy. -/
structure UCB1State (σ : Type) where
  n_actions : ℕ
  q_values : List ℚ
  counts : List ℕ
  total_steps : ℕ
  rng : σ

def ucb1Init (C : PyCtx σ) (n : ℕ) (seed : Option Int) : UCB1State σ :=
  { n_actions := n, q_values := List.replicate n 0,
    counts := List.replicate n 0, total_steps := 0, rng := C.seedOf seed }

/-- The cold-start loop `for i in range(n_actions): if counts[i] == 0: return i`. -/
def firstZeroCount (counts : List ℕ) (n : ℕ) : Option ℕ :=
  (List.range n).find? (fun i => decide (counts.getD i 0 = 0))

/-- `UCB1.select_action`: `total_steps` is incremented first, then the
cold-start scan, then the UCB score comparison. -/
def ucb1Select (C : PyCtx σ) (st : UCB1State σ) : ℕ × UCB1State σ :=
  let st1 : UCB1State σ := { st with total_steps := st.total_steps + 1 }
  match firstZeroCount st1.counts st1.n_actions with
  | some i => (i, st1)
  | none =>
    let ucb_values := (List.range st1.n_actions).map (fun i =>
      st1.q_values.getD i 0 +
        C.sqrtQ (2 * C.logQ (st1.total_steps : ℚ) / (st1.counts.getD i 0 : ℚ)))
    let (a, s1) := C.choice (argmaxIdx ucb_values) st1.rng
    (a, { st1 with rng := s1 })

/-- `UCB1.update`. -/
def ucb1Update (st : UCB1State σ) (action : ℕ) (reward : ℚ) : UCB1State σ :=
  let (q1, c1) := qvUpdate st.q_values st.counts action reward
  { st with q_values := q1, counts := c1 }

/-- State of the `ThompsonSampling` policy (`Beta(1,1)` priors at init). -/
structure ThompsonState (σ : Type) where
  n_actions : ℕ
  successes : List ℕ
  failures : List ℕ
  rng : σ

def thompsonInit (C : PyCtx σ) (n : ℕ) (seed : Option Int) : ThompsonState σ :=
  { n_actions := n, successes := List.replicate n 1,
    failures := List.replicate n 1, rng := C.seedOf seed }

/-- The list comprehension drawing one Beta sample per arm, advancing the
generator once per draw, in index order. -/
def betaDraws (C : PyCtx σ) (successes failures : List ℕ) :
    List ℕ → σ → List ℚ × σ
  | [], s => ([], s)
  | i :: is, s =>
    let (x, s1) := C.betavariate (successes.getD i 0) (failures.getD i 0) s
    let (xs, s2) := betaDraws C successes failures is s1
    (x :: xs, s2)

/-- `ThompsonSampling.select_action`. -/
def thompsonSelect (C : PyCtx σ) (st : ThompsonState σ) : ℕ × ThompsonState σ :=
  let (samples, s1) :=
    betaDraws C st.successes st.failures (List.range st.n_actions) st.rng
  let (a, s2) := C.choice (argmaxIdx samples) s1
  (a, { st with rng := s2 })

/-- `ThompsonSampling.update`: `reward == 1` bumps the success count of the
arm, any other reward bumps its failure count. -/
def thompsonUpdate (st : ThompsonState σ) (action : ℕ) (reward : ℚ) :
    ThompsonState σ :=
  if reward = 1 then
    { st with successes :=
        st.successes.set action (st.successes.getD action 0 + 1) }
  else
    { st with failures :=
        st.failures.set action (st.failures.getD action 0 + 1) }

/-- The state snapshot handed to a user-supplied decision function
(`CustomAlgoWrapper.select_action` builds this dict). -/
structure CustomObs where
  n_actions : ℕ
  t : ℕ
  last_action : Option Int
  last_reward : Option ℚ
  seed : Option Int

/-- A user-supplied entry function: may raise (modelled as `Except.error`)
or return an arbitrary integer, later clamped by the wrapper. -/
def CustomEntry : Type := CustomObs → Except String Int

/-- State of `CustomAlgoWrapper` (the base-class `_rng` is created but never
used by the wrapper). -/
structure CustomState (σ : Type) where
  n_actions : ℕ
  seed : Option Int
  entry : CustomEntry
  t : ℕ
  last_action : Option Int
  last_reward : Option ℚ
  rng : σ

def customInit (C : PyCtx σ) (n : ℕ) (seed : Option Int) (entry : CustomEntry) :
    CustomState σ :=
  { n_actions := n, seed := seed, entry := entry, t := 0,
    last_action := none, last_reward := none, rng := C.seedOf seed }

/-- `CustomAlgoWrapper.select_action`: calls the entry function on the state
snapshot, re-raises its exceptions with a tagged message, and clamps the
returned index into `[0, n_actions - 1]`. -/
def customSelect (st : CustomState σ) : Except String (Int × CustomState σ) :=
  match st.entry
      { n_actions := st.n_actions, t := st.t, last_action := st.last_action,
        last_reward := st.last_reward, seed := st.seed } with
  | .error e =>
    .error ("Custom algorithm error at t=" ++ toString st.t ++ ": " ++ e)
  | .ok a => .ok (max 0 (min ((st.n_actions : Int) - 1) a), st)

/-- `CustomAlgoWrapper.update`. -/
def customUpdate (st : CustomState σ) (action : Int) (reward : ℚ) :
    CustomState σ :=
  { st with
    last_action := some action
    last_reward := some reward
    t := st.t + 1 }

/-- Closed union of the policy variants used by the plot batch. -/
inductive PolicyState (σ : Type) where
  | greedy : GreedyState σ → PolicyState σ
  | epsGreedy : EpsilonGreedyState σ → PolicyState σ
  | ucb1 : UCB1State σ → PolicyState σ
  | thompson : ThompsonState σ → PolicyState σ
  | custom : CustomState σ → PolicyState σ

/-- Dispatch of `select_action`.  Built-ins never raise; only the custom
wrapper can (its entry function is arbitrary user code). -/
def policySelect (C : PyCtx σ) : PolicyState σ → Except String (Int × PolicyState σ)
  | .greedy st =>
    let (a, st1) := greedySelect C st
    .ok ((a : Int), .greedy st1)
  | .epsGreedy st =>
    let (a, st1) := epsilonGreedySelect C st
    .ok ((a : Int), .epsGreedy st1)
  | .ucb1 st =>
    let (a, st1) := ucb1Select C st
    .ok ((a : Int), .ucb1 st1)
  | .thompson st =>
    let (a, st1) := thompsonSelect C st
    .ok ((a : Int), .thompson st1)
  | .custom st =>
    match customSelect st with
    | .error e => .error e
    | .ok (a, st1) => .ok (a, .custom st1)

/-- Dispatch of `update`.  The built-ins are always called with the
(non-negative) action they themselves returned, so `Int.toNat` is faithful. -/
def policyUpdate (st : PolicyState σ) (action : Int) (reward : ℚ) : PolicyState σ :=
  match st with
  | .greedy st => .greedy (greedyUpdate st action.toNat reward)
  | .epsGreedy st => .epsGreedy (epsilonGreedyUpdate st action.toNat reward)
  | .ucb1 st => .ucb1 (ucb1Update st action.toNat reward)
  | .thompson st => .thompson (thompsonUpdate st action.toNat reward)
  | .custom st => .custom (customUpdate st action reward)

/-- The two environment variants, each owning its generator state. -/
inductive Env (σ : Type) where
  | bernoulli (n_actions : ℕ) (p : List ℚ) (rng : σ)
  | gaussian (n_actions : ℕ) (means : List ℚ) (stds : List ℚ) (rng : σ)
deriving DecidableEq

def Env.nActions : Env σ → ℕ
  | .bernoulli n _ _ => n
  | .gaussian n _ _ _ => n

/-- JSON-serializable snapshot returned by `info()`. -/
inductive EnvInfo where
  | bernoulli (n_actions : ℕ) (p : List ℚ)
  | gaussian (n_actions : ℕ) (means : List ℚ) (stds : List ℚ)
deriving DecidableEq

def Env.info : Env σ → EnvInfo
  | .bernoulli n p _ => .bernoulli n p
  | .gaussian n means stds _ => .gaussian n means stds

def EnvInfo.nActions : EnvInfo → ℕ
  | .bernoulli n _ => n
  | .gaussian n _ _ => n

/-- `step(action)`.  Bernoulli evaluates `self._rng.random()` before indexing
`self.p[action]`, so the draw happens even when the index is invalid; Gaussian
indexes `means[action]` and `stds[action]` before calling `gauss`.  An invalid
index is an uncaught `IndexError` (unreachable from the checked call sites;
Python's negative-index wraparound is not modelled since every caller passes a
non-negative action). -/
def Env.step (C : PyCtx σ) : Env σ → Int → Except String ℚ × Env σ
  | .bernoulli n p rng, a =>
    let (x, rng1) := C.random rng
    if 0 ≤ a ∧ a.toNat < p.length then
      (.ok (if x < p.getD a.toNat 0 then 1 else 0), .bernoulli n p rng1)
    else
      (.error "IndexError", .bernoulli n p rng1)
  | .gaussian n means stds rng, a =>
    if 0 ≤ a ∧ a.toNat < means.length ∧ a.toNat < stds.length then
      let (r, rng1) := C.gauss (means.getD a.toNat 0) (stds.getD a.toNat 0) rng
      (.ok r, .gaussian n means stds rng1)
    else
      (.error "IndexError", .gaussian n means stds rng)

/-- Sequential parameter draws performed by `reset()`. -/
def drawUniformList (C : PyCtx σ) (a b : ℚ) : ℕ → σ → List ℚ × σ
  | 0, s => ([], s)
  | k + 1, s =>
    let (x, s1) := C.uniform a b s
    let (xs, s2) := drawUniformList C a b k s1
    (x :: xs, s2)

/-- `BernoulliBanditEnv(n_actions, seed)`: seeds the generator, then `reset`
draws `p[i] = uniform(0.1, 0.9)` for each arm. -/
def mkBernoulliEnv (C : PyCtx σ) (n : ℕ) (seed : Option Int) : Env σ :=
  let (p, s1) := drawUniformList C (1/10) (9/10) n (C.seedOf seed)
  .bernoulli n p s1

/-- `GaussianBanditEnv(n_actions, seed)`: `reset` draws the means then the
standard deviations. -/
def mkGaussianEnv (C : PyCtx σ) (n : ℕ) (seed : Option Int) : Env σ :=
  let (means, s1) := drawUniformList C (-1) 1 n (C.seedOf seed)
  let (stds, s2) := drawUniformList C (1/10) 1 n s1
  .gaussian n means stds s2

inductive EnvType where
  | bernoulli
  | gaussian
deriving DecidableEq

def make_env (C : PyCtx σ) (t : EnvType) (n : ℕ) (seed : Option Int) : Env σ :=
  match t with
  | .bernoulli => mkBernoulliEnv C n seed
  | .gaussian => mkGaussianEnv C n seed

/-- One entry of `PlaySession.history`: `{t, action, reward, accepted?}`,
the `accepted` key present only for Bernoulli environments. -/
structure StepEvent where
  t : ℕ
  action : Int
  reward : ℚ
  accepted : Option Bool
deriving DecidableEq

/-- The `PlaySession` dataclass. -/
structure PlaySession (σ : Type) where
  id : String
  env : Env σ
  iterations : ℕ
  t : ℕ
  history : List StepEvent
  last_access : ℚ
  seed : Option Int
deriving DecidableEq

/-- The `PLAY` dict: an insertion-ordered map from session id to session. -/
abbrev Store (σ : Type) : Type := List (String × PlaySession σ)

def PLAY_TTL : ℚ := 30 * 60

/-- Insert-or-replace on an association list, preserving the position of an
existing key exactly like assignment into a Python dict. -/
def assocSet {α : Type} : List (String × α) → String → α → List (String × α)
  | [], sid, v => [(sid, v)]
  | (k, w) :: rest, sid, v =>
    if k = sid then (sid, v) :: rest else (k, w) :: assocSet rest sid v

/-- `_gc(now)`: drop every session with `now - last_access > PLAY_TTL`. -/
def gcStore (now : ℚ) (store : Store σ) : Store σ :=
  store.filter (fun p => ! decide (now - p.2.last_access > PLAY_TTL))

/-- `PlayStartReq` after validation (the `algorithms` field is accepted but
never read by the handler). -/
structure PlayStartReq where
  env : EnvType
  n_actions : ℕ
  iterations : ℕ
  algorithms : List String
  seed : Option Int

structure StartResp where
  session_id : String
  env : EnvInfo
  t : ℕ
  iterations : ℕ
deriving DecidableEq

/-- `api_play_start`: builds the environment, inserts the fresh session
(the generated uuid is a parameter here), runs `_gc`, and answers. -/
def api_play_start (C : PyCtx σ) (now : ℚ) (sid : String) (store : Store σ)
    (req : PlayStartReq) : Store σ × StartResp :=
  let env := make_env C req.env req.n_actions req.seed
  let s : PlaySession σ :=
    { id := sid, env := env, iterations := req.iterations, t := 0,
      history := [], last_access := now, seed := req.seed }
  let store1 := gcStore now (assocSet store sid s)
  (store1, { session_id := sid, env := env.info, t := 0,
             iterations := req.iterations })

structure PlayStepReq where
  session_id : String
  action : Int

/-- Possible bodies of the step response; `serverError` stands for an
uncaught exception escaping the handler (unreachable after the range check). -/
inductive StepResp where
  | invalidSession
  | outOfRange
  | preDone (t : ℕ)
  | ok (ev : StepEvent) (done : Bool)
  | serverError
deriving DecidableEq

/-- `api_play_step`: 404 on unknown id, 400 on out-of-range action, a
`done` no-op when `t >= iterations`, otherwise one environment tick. -/
def api_play_step (C : PyCtx σ) (now : ℚ) (store : Store σ)
    (req : PlayStepReq) : Store σ × StepResp :=
  match List.lookup req.session_id store with
  | none => (store, .invalidSession)
  | some s =>
    if req.action < 0 ∨ (s.env.nActions : Int) ≤ req.action then
      (store, .outOfRange)
    else if s.iterations ≤ s.t then
      (store, .preDone s.t)
    else
      match Env.step C s.env req.action with
      | (.error _, env1) =>
        (assocSet store req.session_id { s with env := env1 }, .serverError)
      | (.ok r, env1) =>
        let ev : StepEvent :=
          { t := s.t + 1, action := req.action, reward := r,
            accepted :=
              match env1.info with
              | .bernoulli _ _ => some (decide (1 ≤ r))
              | .gaussian _ _ _ => none }
        let s1 : PlaySession σ :=
          { s with
            env := env1
            t := s.t + 1
            last_access := now
            history := s.history ++ [ev] }
        (assocSet store req.session_id s1, .ok ev (decide (s1.iterations ≤ s1.t)))

structure LogResp where
  t : ℕ
  iterations : ℕ
  history : List StepEvent
  env : EnvInfo
deriving DecidableEq

/-- `api_play_log`: refreshes `last_access` and returns the snapshot. -/
def api_play_log (now : ℚ) (store : Store σ) (sid : String) :
    Store σ × Option LogResp :=
  match List.lookup sid store with
  | none => (store, none)
  | some s =>
    let s1 := { s with last_access := now }
    (assocSet store sid s1,
     some { t := s1.t, iterations := s1.iterations, history := s1.history,
            env := s1.env.info })

/-- `api_play_end`: pops the id (idempotent), runs `_gc`, answers `ok`. -/
def api_play_end (now : ℚ) (store : Store σ) (sid : String) :
    Store σ × Bool :=
  let present := (List.lookup sid store).isSome
  let store1 := store.eraseP (fun p => p.1 == sid)
  (gcStore now store1, present)

/-- `api_play_reset`: zeroes `t`, clears `history`, keeps the same
environment object, refreshes `last_access`. -/
def api_play_reset (now : ℚ) (store : Store σ) (sid : String) :
    Store σ × Bool :=
  match List.lookup sid store with
  | none => (store, false)
  | some s =>
    (assocSet store sid { s with t := 0, history := [], last_access := now },
     true)

/-- `PlotReq` after validation: `iterations` has no bound constraints and
defaults to `None`. -/
structure PlotReq where
  session_id : String
  algorithms : List String
  custom_algorithms : Option (List String)
  iterations : Option Int

/-- Resolved metadata of an uploaded algorithm: its display name and the
outcome of loading its entry callable (`error` for a load failure). -/
structure CustomMeta where
  name : String
  entry : Except String CustomEntry

/-- Models `_load_meta` plus `_import_callable`: `none` when `meta.json` is
missing for the id. -/
def Resolver : Type := String → Option CustomMeta

/-- `int(req.iterations or s.iterations)`: Python `or` falls through on the
falsy values `None` and `0`. -/
def pyOrIterations (reqIters : Option Int) (sessIters : ℕ) : Int :=
  match reqIters with
  | none => (sessIters : Int)
  | some v => if v = 0 then (sessIters : Int) else v

/-- `ALGOS[key](n_actions, seed=seed)` for the four built-in keys;
`EpsilonGreedy` is constructed with its default `epsilon = 0.1`. -/
def initBuiltin (C : PyCtx σ) (key : String) (n : ℕ) (seed : Option Int) :
    Option (PolicyState σ) :=
  if key = "greedy" then some (.greedy (greedyInit C n seed))
  else if key = "epsilon_greedy" then
    some (.epsGreedy (epsilonGreedyInit C n seed (1/10)))
  else if key = "ucb1" then some (.ucb1 (ucb1Init C n seed))
  else if key = "thompson" then some (.thompson (thompsonInit C n seed))
  else none

/-- The loop over `req.algorithms`: unknown keys become warnings, known keys
are inserted into the `builtins` dict. -/
def buildBuiltins (C : PyCtx σ) (n : ℕ) (seed : Option Int) :
    List String → List (String × PolicyState σ) → List String →
    List (String × PolicyState σ) × List String
  | [], acc, errs => (acc, errs)
  | key :: rest, acc, errs =>
    match initBuiltin C key n seed with
    | none =>
      buildBuiltins C n seed rest acc
        (errs ++ ["unknown algorithm " ++ key ++ " skipped"])
    | some p => buildBuiltins C n seed rest (assocSet acc key p) errs

/-- The loop over `req.custom_algorithms`: missing metadata and load failures
become warnings, successfully resolved entries are wrapped and inserted under
the label `custom:<name>`. -/
def buildCustoms (C : PyCtx σ) (n : ℕ) (seed : Option Int) (resolver : Resolver) :
    List String → List (String × PolicyState σ) → List String →
    List (String × PolicyState σ) × List String
  | [], acc, errs => (acc, errs)
  | aid :: rest, acc, errs =>
    match resolver aid with
    | none =>
      buildCustoms C n seed resolver rest acc
        (errs ++ ["custom id " ++ aid ++ " not found"])
    | some meta =>
      match meta.entry with
      | .error e =>
        buildCustoms C n seed resolver rest acc
          (errs ++ ["[custom:" ++ aid ++ "] load failed: " ++ e])
      | .ok fn =>
        buildCustoms C n seed resolver rest
          (assocSet acc ("custom:" ++ meta.name) (.custom (customInit C n seed fn)))
          errs

/-- `{**builtins, **customs}`. -/
def assocMerge {α : Type} (b c : List (String × α)) : List (String × α) :=
  c.foldl (fun acc p => assocSet acc p.1 p.2) b

/-- The warning recorded by the batch loop's `except` clause. -/
def warnMsg (name : String) (t : ℕ) (e : String) : String :=
  "[algo " ++ name ++ "] t=" ++ toString t ++ " error: " ++ e

/-- One policy's slice of tick `t`: the `try` block
`a = algo.select_action(); r = env.step(a); algo.update(a, r)` with the
`except` clause substituting `a, r = 0, 0.0` and recording a warning.
Partial mutations before the raise (a policy state advanced by a successful
`select_action`, the Bernoulli generator draw inside a failing `step`) are
kept, as in Python. -/
def tickPolicy (C : PyCtx σ) (env : Env σ) (name : String) (t : ℕ)
    (st : PolicyState σ) : Env σ × PolicyState σ × Int × ℚ × Option String :=
  match policySelect C st with
  | .error e => (env, st, 0, 0, some (warnMsg name t e))
  | .ok (a, st1) =>
    match Env.step C env a with
    | (.error e, env1) => (env1, st1, 0, 0, some (warnMsg name t e))
    | (.ok r, env1) => (env1, policyUpdate st1 a r, a, r, none)

/-- The inner loop `for name, algo in algs.items()` of one tick.  The traces
dict is keyed exactly by the policy names in the same order, so it is carried
positionally; each policy appends one action and one reward to its trace. -/
def runPoliciesTick (C : PyCtx σ) (t : ℕ) :
    Env σ → List (String × PolicyState σ) →
    List (String × (List Int × List ℚ)) → List String →
    Env σ × List (String × PolicyState σ) ×
      List (String × (List Int × List ℚ)) × List String
  | env, [], traces, warns => (env, [], traces, warns)
  | env, (name, st) :: algs, traces, warns =>
    let (env1, st1, a, r, w) := tickPolicy C env name t st
    let warns1 := match w with
      | none => warns
      | some msg => warns ++ [msg]
    match traces with
    | [] =>
      let (env2, algs2, traces2, warns2) :=
        runPoliciesTick C t env1 algs [] warns1
      (env2, (name, st1) :: algs2, traces2, warns2)
    | tr :: trest =>
      let (env2, algs2, traces2, warns2) :=
        runPoliciesTick C t env1 algs trest warns1
      (env2, (name, st1) :: algs2,
       (tr.1, (tr.2.1 ++ [a], tr.2.2 ++ [r])) :: traces2, warns2)

/-- The outer loop `for t in range(iterations)`, counting down the remaining
ticks while `t` counts up. -/
def runBatchFrom (C : PyCtx σ) :
    ℕ → ℕ → Env σ → List (String × PolicyState σ) →
    List (String × (List Int × List ℚ)) → List String →
    Env σ × List (String × PolicyState σ) ×
      List (String × (List Int × List ℚ)) × List String
  | 0, _, env, algs, traces, warns => (env, algs, traces, warns)
  | k + 1, t, env, algs, traces, warns =>
    let (env1, algs1, traces1, warns1) := runPoliciesTick C t env algs traces warns
    runBatchFrom C k (t + 1) env1 algs1 traces1 warns1

/-- `{name: {"rewards": [], "actions": []} for name in algs.keys()}`. -/
def initTraces (algs : List (String × PolicyState σ)) :
    List (String × (List Int × List ℚ)) :=
  algs.map (fun p => (p.1, (([] : List Int), ([] : List ℚ))))

/-- The per-policy summary: running cumulative mean over `enumerate(rewards,
start=1)`, then `mean = cum / len(rewards)`; `(0, 0)` for an empty trace.
Returns `(mean_reward, final_avg_reward)`. -/
def summaryStep (acc : ℚ × ℚ × ℕ) (v : ℚ) : ℚ × ℚ × ℕ :=
  let cum := acc.1 + v
  let i := acc.2.2 + 1
  (cum, cum / (i : ℚ), i)

def summarize (rewards : List ℚ) : ℚ × ℚ :=
  match rewards with
  | [] => (0, 0)
  | _ =>
    let acc := rewards.foldl summaryStep ((0 : ℚ), (0 : ℚ), (0 : ℕ))
    (acc.1 / (rewards.length : ℚ), acc.2.1)

/-- `env.p = list(env_info["p"])` on a freshly constructed replica. -/
def envSetP : Env σ → List ℚ → Env σ
  | .bernoulli n _ rng, p => .bernoulli n p rng
  | e, _ => e

/-- `env.means = ...; env.stds = ...` on a freshly constructed replica. -/
def envSetMeansStds : Env σ → List ℚ → List ℚ → Env σ
  | .gaussian n _ _ rng, means, stds => .gaussian n means stds rng
  | e, _, _ => e

/-- The environment replica built by `api_plot`: same parameters as the
session's snapshot, fresh generator seeded with the session seed (the
constructor's `reset()` draws are performed and then overwritten). -/
def rebuildEnv (C : PyCtx σ) (info : EnvInfo) (seed : Option Int) : Env σ :=
  match info with
  | .bernoulli n p => envSetP (mkBernoulliEnv C n seed) p
  | .gaussian n means stds => envSetMeansStds (mkGaussianEnv C n seed) means stds

/-- The successful plot response. -/
structure PlotOut where
  env_info : EnvInfo
  iterations : Int
  traces : List (String × (List Int × List ℚ))
  summary : List (String × (ℚ × ℚ))
  warnings : List String
deriving DecidableEq

/-- The body of `api_plot` once the session has been found: environment
replica, horizon resolution, policy-set construction, the degenerate
`empty_trace` answer, or the batch run plus summaries. -/
def plotCore (C : PyCtx σ) (resolver : Resolver) (s : PlaySession σ)
    (req : PlotReq) : PlotOut :=
  let env_info := s.env.info
  let n_actions := env_info.nActions
  let seed := s.seed
  let env := rebuildEnv C env_info seed
  let iterations := pyOrIterations req.iterations s.iterations
  let bres := buildBuiltins C n_actions seed req.algorithms [] []
  let cres := buildCustoms C n_actions seed resolver
    (req.custom_algorithms.getD []) [] bres.2
  let algs := assocMerge bres.1 cres.1
  if algs.isEmpty then
    { env_info := env_info
      iterations := iterations
      traces := [("empty_trace",
        ((List.range iterations.toNat).map Int.ofNat,
         List.replicate iterations.toNat (0 : ℚ)))]
      summary := [("empty_trace", ((0 : ℚ), (0 : ℚ)))]
      warnings := cres.2 }
  else
    let run := runBatchFrom C iterations.toNat 0 env algs (initTraces algs) cres.2
    { env_info := env_info
      iterations := iterations
      traces := run.2.2.1
      summary := run.2.2.1.map (fun p => (p.1, summarize p.2.2))
      warnings := run.2.2.2 }

/-- `api_plot`: 404 on an unknown session id, otherwise `plotCore`; the
session store itself is left untouched (not even `last_access` changes). -/
def api_plot (C : PyCtx σ) (resolver : Resolver) (store : Store σ)
    (req : PlotReq) : Store σ × Option PlotOut :=
  match List.lookup req.session_id store with
  | none => (store, none)
  | some s => (store, some (plotCore C resolver s req))

/-- A small concrete instance of the generator model over `ℕ` states, used
to evaluate the definitions on closed inputs.  `choice` walks the candidate
list by the state, so distinct stream positions can pick distinct members. -/
def natCtx : PyCtx ℕ where
  seedOf := fun s => match s with
    | none => 0
    | some v => v.natAbs
  random := fun s => (mkRat 1 2, s + 1)
  randrange := fun _ s => (0, s + 1)
  choice := fun l s => (l.getD (s % l.length) 0, s + 1)
  betavariate := fun _ _ s => (mkRat 1 2, s + 1)
  uniform := fun a _ s => (a, s + 1)
  gauss := fun m _ s => (m, s + 1)
  sqrtQ := fun q => q
  logQ := fun q => q
  random_nonneg := fun _ => by norm_num
  random_lt_one := fun _ => by norm_num
  choice_mem := by
    intro l s h
    have hlen : 0 < l.length := List.length_pos.mpr h
    have hidx : s % l.length < l.length := Nat.mod_lt _ hlen
    show l.getD (s % l.length) 0 ∈ l
    rw [List.getD_eq_getElem l 0 hidx]
    exact List.getElem_mem hidx

/-- The standard driving cycle for UCB1: each `select_action` is followed by
`update` with the returned action, the reward at global step `t` being
`rs t`.  Returns the list of selected actions. -/
def ucb1DriveActions (C : PyCtx σ) (rs : ℕ → ℚ) : ℕ → ℕ → UCB1State σ → List ℕ
  | _, 0, _ => []
  | t, k + 1, st =>
    let (a, st1) := ucb1Select C st
    let st2 := ucb1Update st1 a (rs t)
    a :: ucb1DriveActions C rs (t + 1) k st2

/-- Pull counts after the first `j` cold-start cycles: one pull for each arm
below `j`, none above. -/
def coldCounts (n j : ℕ) : List ℕ :=
  (List.range n).map (fun i => if i < j then 1 else 0)

def c6Session : PlaySession ℕ :=
  ⟨"a", Env.bernoulli 2 [1, 1] 0, 1, 1,
    [{ t := 1, action := 0, reward := 1, accepted := some true }], 3, none⟩

def c6Store : Store ℕ := [("a", c6Session)]

def c2LiveSession : PlaySession ℕ :=
  ⟨"live", Env.bernoulli 2 [1, 1] 0, 5, 0, [], 1999, none⟩

def c2OldSession : PlaySession ℕ :=
  ⟨"old", Env.bernoulli 2 [1, 1] 0, 5, 0, [], 0, none⟩

/-- A store holding one fresh session and one session whose `last_access`
lies more than the TTL in the past at time 2000. -/
def c2Store : Store ℕ := [("live", c2LiveSession), ("old", c2OldSession)]

/-- The documented per-session invariant: `0 ≤ t ≤ iterations` and
`len(history) == t` (the lower bound is implicit in the `ℕ` type). -/
def SessionWF (s : PlaySession σ) : Prop :=
  s.t ≤ s.iterations ∧ s.history.length = s.t

/-- Every session in the store satisfies the invariant. -/
def StoreWF (store : Store σ) : Prop := ∀ p ∈ store, SessionWF p.2

/-- Every trace in the dict has both of its lists at length `k`. -/
def TracesLen (k : ℕ) (traces : List (String × (List Int × List ℚ))) : Prop :=
  ∀ p ∈ traces, p.2.1.length = k ∧ p.2.2.length = k

def badEntry : CustomEntry := fun _ => .error "boom"

def c4Env : Env ℕ := .bernoulli 2 [1, 1] 0

def c4Algs : List (String × PolicyState ℕ) :=
  [("greedy", .greedy (greedyInit natCtx 2 none)),
   ("custom:bad", .custom (customInit natCtx 2 none badEntry))]

def c3Session1 : PlaySession ℕ :=
  ⟨"s", Env.bernoulli 2 [1, 1] 5, 4, 3,
    [{ t := 1, action := 0, reward := 1, accepted := some true }], 100, some 7⟩

def c3Session2 : PlaySession ℕ :=
  ⟨"s", Env.bernoulli 2 [1, 1] 9, 4, 0, [], 200, some 7⟩

def c9Session : PlaySession ℕ :=
  ⟨"s", Env.bernoulli 2 [1, 1] 3, 1, 0, [], 0, none⟩

def c10Session : PlaySession ℕ :=
  ⟨"s", Env.bernoulli 2 [1, 1] 3, 2, 0, [], 0, none⟩

def c10Store : Store ℕ := [("s", c10Session)]

def c10Req : PlotReq :=
  { session_id := "s", algorithms := ["greedy"], custom_algorithms := none,
    iterations := some 0 }

theorem pyMax_mem (l : List ℚ) (h : l ≠ []) : pyMax l ∈ l := by
  match l, h with
  | x :: xs, _ =>
    suffices hs : ∀ (ys : List ℚ) (a : ℚ), ys.foldl max a = a ∨ ys.foldl max a ∈ ys by
      rcases hs xs x with h1 | h1
      · show xs.foldl max x ∈ x :: xs
        rw [h1]; exact List.mem_cons_self x xs
      · show xs.foldl max x ∈ x :: xs
        exact List.mem_cons_of_mem x h1
    intro ys
    induction ys with
    | nil => intro a; left; rfl
    | cons y ys ih =>
      intro a
      rw [List.foldl_cons]
      rcases ih (max a y) with h1 | h1
      · rcases max_choice a y with h2 | h2
        · left; rw [h1, h2]
        · right; rw [h1, h2]; exact List.mem_cons_self y ys
      · right; exact List.mem_cons_of_mem y h1

theorem argmaxIdx_ne_nil (l : List ℚ) (h : l ≠ []) : argmaxIdx l ≠ [] := by
  have hm : pyMax l ∈ l := pyMax_mem l h
  rcases List.mem_iff_getElem.mp hm with ⟨i, hi, hgi⟩
  have henum : (i, pyMax l) ∈ l.enum := by
    rw [List.mem_iff_getElem]
    refine ⟨i, by simpa using hi, ?_⟩
    simp [List.getElem_enum, hgi]
  have : (i, pyMax l) ∈ l.enum.filter (fun p => decide (p.2 = pyMax l)) := by
    rw [List.mem_filter]
    exact ⟨henum, by simp⟩
  intro hnil
  have : i ∈ argmaxIdx l := by
    rw [argmaxIdx, List.mem_map]
    exact ⟨(i, pyMax l), this, rfl⟩
  simp [hnil] at this

/-- C1 (counterexample): with two arms, the shared initial generator state,
`ε = 0`, and no updates applied, the very first `select_action` already
differs between `EpsilonGreedy(ε=0)` and `Greedy`: the ε-test inside
`EpsilonGreedy.select_action` consumes one generator draw before the
tie-break, so the two tie-breaks read different stream positions. -/
theorem eps0_first_action_differs_from_greedy :
    (epsilonGreedySelect natCtx (epsilonGreedyInit natCtx 2 none 0)).1 ≠
      (greedySelect natCtx (greedyInit natCtx 2 none)).1 := by decide

/-- C1 (amended): with `ε = 0` the exploration branch is never taken:
`EpsilonGreedy.select_action` returns a member of the argmax candidate set of
its Q-values — the same candidate set `Greedy` draws from — and whenever that
candidate set is a singleton the two policies return the same action.  Full
behavioural identity fails only because the ε-test consumes a generator draw
(see the counterexample). -/
theorem eps0_greedy_same_candidates (C : PyCtx σ) (se : EpsilonGreedyState σ)
    (sg : GreedyState σ) (heps : se.epsilon = 0) (hq : se.q_values = sg.q_values)
    (hne : sg.q_values ≠ []) :
    (epsilonGreedySelect C se).1 ∈ argmaxIdx sg.q_values ∧
    (greedySelect C sg).1 ∈ argmaxIdx sg.q_values ∧
    (∀ a, argmaxIdx sg.q_values = [a] →
      (epsilonGreedySelect C se).1 = (greedySelect C sg).1) := by
  have hcands : argmaxIdx sg.q_values ≠ [] := argmaxIdx_ne_nil _ hne
  rcases hx : C.random se.rng with ⟨x, s1⟩
  have hxlt : ¬ (x < se.epsilon) := by
    rw [heps]
    have h0 := C.random_nonneg se.rng
    rw [hx] at h0
    exact not_lt.mpr h0
  rcases hc : C.choice (argmaxIdx se.q_values) s1 with ⟨ae, s2⟩
  rcases hg : C.choice (argmaxIdx sg.q_values) sg.rng with ⟨ag, s3⟩
  have hmem_e : ae ∈ argmaxIdx sg.q_values := by
    have hm := C.choice_mem (argmaxIdx se.q_values) s1 (by rw [hq]; exact hcands)
    rw [hc] at hm
    rwa [hq] at hm
  have hmem_g : ag ∈ argmaxIdx sg.q_values := by
    have hm := C.choice_mem (argmaxIdx sg.q_values) sg.rng hcands
    rwa [hg] at hm
  have he : (epsilonGreedySelect C se).1 = ae := by
    simp [epsilonGreedySelect, hx, hxlt, hc]
  have hgr : (greedySelect C sg).1 = ag := by
    simp [greedySelect, hg]
  refine ⟨by rw [he]; exact hmem_e, by rw [hgr]; exact hmem_g, ?_⟩
  intro a ha
  rw [ha] at hmem_e hmem_g
  rw [List.mem_singleton] at hmem_e hmem_g
  rw [he, hgr, hmem_e, hmem_g]

/-- Closed instance of the amended C1 theorem at a Q-vector with a unique
argmax. -/
theorem eps0_greedy_same_candidates_witness :
    (epsilonGreedySelect natCtx
      { n_actions := 2, epsilon := 0, q_values := [0, 5], counts := [0, 0],
        rng := 0 }).1 ∈ argmaxIdx [0, 5] ∧
    (greedySelect natCtx
      { q_values := [0, 5], counts := [0, 0], rng := 0 }).1 ∈ argmaxIdx [0, 5] ∧
    (∀ a, argmaxIdx [(0 : ℚ), 5] = [a] →
      (epsilonGreedySelect natCtx
        { n_actions := 2, epsilon := 0, q_values := [0, 5], counts := [0, 0],
          rng := 0 }).1 =
      (greedySelect natCtx
        { q_values := [0, 5], counts := [0, 0], rng := 0 }).1) :=
  eps0_greedy_same_candidates natCtx
    { n_actions := 2, epsilon := 0, q_values := [0, 5], counts := [0, 0],
      rng := 0 }
    { q_values := [0, 5], counts := [0, 0], rng := 0 }
    rfl rfl (by decide)

/-- C8: `ThompsonSampling.update(a, r)` with `r = 1` bumps `successes[a]` by
exactly one and leaves the failure list untouched; any other reward bumps
`failures[a]` by exactly one and leaves the success list untouched; every
other arm's entries are unchanged in both cases. -/
theorem thompson_update_counts (st : ThompsonState σ) (a : ℕ) (r : ℚ)
    (ha : a < st.successes.length) (hb : a < st.failures.length) :
    (r = 1 →
      (thompsonUpdate st a r).successes.getD a 0 = st.successes.getD a 0 + 1 ∧
      (thompsonUpdate st a r).failures = st.failures) ∧
    (r ≠ 1 →
      (thompsonUpdate st a r).failures.getD a 0 = st.failures.getD a 0 + 1 ∧
      (thompsonUpdate st a r).successes = st.successes) ∧
    (∀ b, b ≠ a →
      (thompsonUpdate st a r).successes.getD b 0 = st.successes.getD b 0 ∧
      (thompsonUpdate st a r).failures.getD b 0 = st.failures.getD b 0) := by
  refine ⟨fun hr => ?_, fun hr => ?_, fun b hba => ?_⟩
  · rw [thompsonUpdate, if_pos hr]
    refine ⟨?_, rfl⟩
    rw [List.getD_eq_getElem?_getD, List.getElem?_set_self ha]
    rfl
  · rw [thompsonUpdate, if_neg hr]
    refine ⟨?_, rfl⟩
    rw [List.getD_eq_getElem?_getD, List.getElem?_set_self hb]
    rfl
  · rw [thompsonUpdate]
    by_cases hr : r = 1
    · rw [if_pos hr]
      refine ⟨?_, rfl⟩
      rw [List.getD_eq_getElem?_getD, List.getElem?_set_ne (Ne.symm hba),
        List.getD_eq_getElem?_getD]
    · rw [if_neg hr]
      refine ⟨rfl, ?_⟩
      rw [List.getD_eq_getElem?_getD, List.getElem?_set_ne (Ne.symm hba),
        List.getD_eq_getElem?_getD]

/-- Closed instance of the C8 theorem on a two-armed Thompson state. -/
theorem thompson_update_counts_witness :
    ((1 : ℚ) = 1 →
      (thompsonUpdate ⟨2, [1, 1], [1, 1], (0 : ℕ)⟩ 1 1).successes.getD 1 0 =
        ([1, 1] : List ℕ).getD 1 0 + 1 ∧
      (thompsonUpdate ⟨2, [1, 1], [1, 1], (0 : ℕ)⟩ 1 1).failures = [1, 1]) ∧
    ((1 : ℚ) ≠ 1 →
      (thompsonUpdate ⟨2, [1, 1], [1, 1], (0 : ℕ)⟩ 1 1).failures.getD 1 0 =
        ([1, 1] : List ℕ).getD 1 0 + 1 ∧
      (thompsonUpdate ⟨2, [1, 1], [1, 1], (0 : ℕ)⟩ 1 1).successes = [1, 1]) ∧
    (∀ b, b ≠ 1 →
      (thompsonUpdate ⟨2, [1, 1], [1, 1], (0 : ℕ)⟩ 1 1).successes.getD b 0 =
        ([1, 1] : List ℕ).getD b 0 ∧
      (thompsonUpdate ⟨2, [1, 1], [1, 1], (0 : ℕ)⟩ 1 1).failures.getD b 0 =
        ([1, 1] : List ℕ).getD b 0) :=
  thompson_update_counts ⟨2, [1, 1], [1, 1], (0 : ℕ)⟩ 1 1 (by decide) (by decide)

theorem coldCounts_length (n j : ℕ) : (coldCounts n j).length = n := by
  simp [coldCounts]

theorem coldCounts_getD (n j i : ℕ) (h : i < n) :
    (coldCounts n j).getD i 0 = if i < j then 1 else 0 := by
  rw [coldCounts, List.getD_eq_getElem?_getD, List.getElem?_map,
    List.getElem?_range h]
  rfl

theorem range'_find?_eq (p : ℕ → Bool) :
    ∀ (len s j : ℕ), s ≤ j → j < s + len →
      (∀ m, s ≤ m → m < j → p m = false) → p j = true →
      (List.range' s len).find? p = some j := by
  intro len
  induction len with
  | zero => intro s j h1 h2 _ _; omega
  | succ len ih =>
    intro s j h1 h2 hlt hpj
    rw [List.range'_succ, List.find?_cons]
    rcases Nat.eq_or_lt_of_le h1 with hsj | hsj
    · subst hsj
      rw [hpj]
    · rw [hlt s le_rfl hsj]
      exact ih (s + 1) j hsj (by omega) (fun m hm1 hm2 => hlt m (by omega) hm2) hpj

theorem range_find?_eq (p : ℕ → Bool) (n j : ℕ) (hj : j < n)
    (hlt : ∀ m, m < j → p m = false) (hpj : p j = true) :
    (List.range n).find? p = some j := by
  rw [List.range_eq_range']
  exact range'_find?_eq p n 0 j (Nat.zero_le j) (by omega)
    (fun m _ hm => hlt m hm) hpj

theorem ucb1Select_cold (C : PyCtx σ) (st : UCB1State σ) (n j : ℕ)
    (hn : st.n_actions = n) (hc : st.counts = coldCounts n j) (hj : j < n) :
    ucb1Select C st = (j, { st with total_steps := st.total_steps + 1 }) := by
  have hfind : firstZeroCount st.counts st.n_actions = some j := by
    rw [hn, hc, firstZeroCount]
    apply range_find?_eq
    · exact hj
    · intro m hm
      have hmn : m < n := lt_trans hm hj
      rw [coldCounts_getD n j m hmn, if_pos hm]
      decide
    · rw [coldCounts_getD n j j hj, if_neg (lt_irrefl j)]
      decide
  rw [ucb1Select]
  simp [hfind]

theorem coldCounts_set (n j : ℕ) (hj : j < n) :
    (coldCounts n j).set j ((coldCounts n j).getD j 0 + 1) = coldCounts n (j + 1) := by
  have hv : (coldCounts n j).getD j 0 = 0 := by
    rw [coldCounts_getD n j j hj, if_neg (lt_irrefl j)]
  rw [hv]
  apply List.ext_getElem?
  intro i
  by_cases hi : i < n
  · by_cases hij : i = j
    · subst hij
      rw [List.getElem?_set_self (by rw [coldCounts_length]; exact hi)]
      rw [coldCounts]
      simp only [List.getElem?_map, List.getElem?_range hi]
      simp
    · rw [List.getElem?_set_ne (fun h => hij h.symm)]
      show (coldCounts n j)[i]? = (coldCounts n (j + 1))[i]?
      rw [coldCounts, coldCounts]
      simp only [List.getElem?_map, List.getElem?_range hi]
      have hiff : (i < j) ↔ (i < j + 1) := by omega
      simp [hiff]
  · rw [List.getElem?_eq_none, List.getElem?_eq_none]
    · rw [coldCounts_length]; omega
    · rw [List.length_set, coldCounts_length]; omega

theorem ucb1_drive_cold (C : PyCtx σ) (rs : ℕ → ℚ) (n : ℕ) :
    ∀ (k j t : ℕ) (st : UCB1State σ), j + k = n → st.n_actions = n →
      st.counts = coldCounts n j →
      ucb1DriveActions C rs t k st = List.range' j k := by
  intro k
  induction k with
  | zero => intro j t st _ _ _; rfl
  | succ k ih =>
    intro j t st hjk hn hc
    have hj : j < n := by omega
    rw [ucb1DriveActions, ucb1Select_cold C st n j hn hc hj]
    have hcounts : (ucb1Update { st with total_steps := st.total_steps + 1 } j
        (rs t)).counts = st.counts.set j (st.counts.getD j 0 + 1) := by
      simp [ucb1Update, qvUpdate]
    have hrec := ih (j + 1) (t + 1)
      (ucb1Update { st with total_steps := st.total_steps + 1 } j (rs t))
      (by omega)
      (by simp [ucb1Update, qvUpdate, hn])
      (by rw [hcounts, hc, coldCounts_set n j hj])
    rw [List.range'_succ]
    simp only [hrec]

/-- C5: driven by the standard select/update cycle, UCB1 plays the arms
`0, 1, …, n_actions-1` in increasing index order during its first
`n_actions` selections, for every generator model, every seed, and every
reward sequence — the cold-start order consults neither. -/
theorem ucb1_cold_start_in_order (C : PyCtx σ) (n : ℕ) (seed : Option Int)
    (rs : ℕ → ℚ) (h : 2 ≤ n) :
    ucb1DriveActions C rs 0 n (ucb1Init C n seed) = List.range n := by
  have hc : (ucb1Init C n seed).counts = coldCounts n 0 := by
    show List.replicate n 0 = coldCounts n 0
    apply List.ext_getElem?
    intro i
    by_cases hi : i < n
    · rw [List.getElem?_replicate_of_lt hi, coldCounts, List.getElem?_map,
        List.getElem?_range hi]
      simp
    · rw [List.getElem?_eq_none (by simpa using hi),
        List.getElem?_eq_none (by rw [coldCounts_length]; omega)]
  rw [ucb1_drive_cold C rs n n 0 0 (ucb1Init C n seed) (by omega) rfl hc,
    List.range_eq_range']

/-- Closed instance of the C5 theorem with three arms. -/
theorem ucb1_cold_start_in_order_witness :
    ucb1DriveActions natCtx (fun _ => 0) 0 3 (ucb1Init natCtx 3 none) =
      List.range 3 :=
  ucb1_cold_start_in_order natCtx 3 none (fun _ => 0) (by decide)

/-- C6: a step request with a valid action on a session that has already
reached its horizon (`t = iterations`) answers `done` with the current tick
and leaves the whole store — session, history, environment, even
`last_access` — unchanged. -/
theorem step_at_horizon_is_noop (C : PyCtx σ) (now : ℚ) (store : Store σ)
    (req : PlayStepReq) (s : PlaySession σ)
    (hs : List.lookup req.session_id store = some s)
    (h0 : 0 ≤ req.action) (hn : req.action < (s.env.nActions : Int))
    (ht : s.t = s.iterations) :
    api_play_step C now store req = (store, StepResp.preDone s.t) := by
  have hcond : ¬ (req.action < 0 ∨ (s.env.nActions : Int) ≤ req.action) := by
    rintro (hlt | hge)
    · exact absurd h0 (not_le.mpr hlt)
    · exact absurd hn (not_lt.mpr hge)
  have hdone : s.iterations ≤ s.t := le_of_eq ht.symm
  simp [api_play_step, hs, hcond, hdone]

/-- Closed instance of the C6 theorem: a two-armed Bernoulli session with
`t = iterations = 1`. -/
theorem step_at_horizon_is_noop_witness :
    api_play_step natCtx 7 c6Store { session_id := "a", action := 0 } =
      (c6Store, StepResp.preDone c6Session.t) :=
  step_at_horizon_is_noop natCtx 7 c6Store { session_id := "a", action := 0 }
    c6Session rfl (by decide) (by decide) rfl

/-- C2 (counterexample): `api_play_step` never calls `_gc`.  A successful
step at time 2000 on the live session leaves the expired session (idle for
2000 s > 1800 s) in the store, so not every store-touching operation evicts
expired sessions. -/
theorem step_leaves_expired_session :
    ("old", c2OldSession) ∈ (api_play_step natCtx 2000 c2Store
      { session_id := "live", action := 0 }).1 ∧
    2000 - c2OldSession.last_access > PLAY_TTL := by
  constructor
  · decide
  · show (2000 : ℚ) - 0 > 30 * 60
    norm_num

theorem mem_gcStore_fresh (now : ℚ) (store : Store σ)
    (p : String × PlaySession σ) (hp : p ∈ gcStore now store) :
    ¬ (now - p.2.last_access > PLAY_TTL) := by
  rw [gcStore, List.mem_filter] at hp
  simpa using hp.2

/-- C2 (amended): only the session-start and session-end handlers run `_gc`;
after either of them completes at time `now`, no session older than the TTL
remains in the store.  The step, log, reset and plot handlers do not sweep
(see the counterexample for step). -/
theorem start_end_evict_expired (C : PyCtx σ) (now : ℚ) (sid1 sid2 : String)
    (store : Store σ) (req : PlayStartReq) :
    (∀ p ∈ (api_play_start C now sid1 store req).1,
      ¬ (now - p.2.last_access > PLAY_TTL)) ∧
    (∀ p ∈ (api_play_end now store sid2).1,
      ¬ (now - p.2.last_access > PLAY_TTL)) := by
  constructor
  · intro p hp
    exact mem_gcStore_fresh now _ p hp
  · intro p hp
    exact mem_gcStore_fresh now _ p hp

/-- Closed instance of the amended C2 theorem: starting a session at time
2000 over the expired store of the counterexample leaves no stale session. -/
theorem start_end_evict_expired_witness :
    (∀ p ∈ (api_play_start natCtx 2000 "fresh" c2Store
        { env := EnvType.bernoulli, n_actions := 2, iterations := 5,
          algorithms := [], seed := none }).1,
      ¬ ((2000 : ℚ) - p.2.last_access > PLAY_TTL)) ∧
    (∀ p ∈ (api_play_end 2000 c2Store "live").1,
      ¬ ((2000 : ℚ) - p.2.last_access > PLAY_TTL)) :=
  start_end_evict_expired natCtx 2000 "fresh" "live" c2Store
    { env := EnvType.bernoulli, n_actions := 2, iterations := 5,
      algorithms := [], seed := none }

theorem lookup_cons_eq {β : Type} (a k : String) (w : β) (rest : List (String × β)) :
    List.lookup a ((k, w) :: rest) =
      if a == k then some w else List.lookup a rest := by
  rw [List.lookup]
  rcases h : a == k with _ | _ <;> simp [h]

theorem lookup_mem {β : Type} (sid : String) (v : β) :
    ∀ l : List (String × β), List.lookup sid l = some v → (sid, v) ∈ l := by
  intro l
  induction l with
  | nil => intro h; simp [List.lookup] at h
  | cons kv rest ih =>
    rcases kv with ⟨k, w⟩
    intro h
    rw [lookup_cons_eq] at h
    by_cases hbe : (sid == k) = true
    · rw [if_pos hbe] at h
      injection h with hw
      have hk : sid = k := eq_of_beq hbe
      rw [hk, ← hw]
      exact List.mem_cons_self _ _
    · rw [if_neg hbe] at h
      exact List.mem_cons_of_mem _ (ih h)

theorem lookup_assocSet_self {β : Type} (sid : String) (v : β) :
    ∀ l : List (String × β), List.lookup sid (assocSet l sid v) = some v := by
  intro l
  induction l with
  | nil =>
    rw [assocSet, lookup_cons_eq, if_pos (by simp)]
  | cons kv rest ih =>
    rcases kv with ⟨k, w⟩
    rw [assocSet]
    by_cases hk : k = sid
    · rw [if_pos hk, lookup_cons_eq, if_pos (by simp)]
    · rw [if_neg hk, lookup_cons_eq,
        if_neg (fun hbe => hk (eq_of_beq hbe).symm)]
      exact ih

theorem mem_assocSet {β : Type} (p : String × β) (sid : String) (v : β) :
    ∀ l : List (String × β), p ∈ assocSet l sid v → p = (sid, v) ∨ p ∈ l := by
  intro l
  induction l with
  | nil =>
    intro h
    rw [assocSet] at h
    left
    simpa using h
  | cons kv rest ih =>
    rcases kv with ⟨k, w⟩
    intro h
    rw [assocSet] at h
    by_cases hk : k = sid
    · rw [if_pos hk] at h
      rcases List.mem_cons.mp h with h1 | h1
      · left; exact h1
      · right; exact List.mem_cons_of_mem _ h1
    · rw [if_neg hk] at h
      rcases List.mem_cons.mp h with h1 | h1
      · right; rw [h1]; exact List.mem_cons_self _ _
      · rcases ih h1 with h2 | h2
        · left; exact h2
        · right; exact List.mem_cons_of_mem _ h2

theorem lookup_filter_of_pos {β : Type} (sid : String) (v : β)
    (pred : String × β → Bool) :
    ∀ l : List (String × β), List.lookup sid l = some v →
      pred (sid, v) = true → List.lookup sid (l.filter pred) = some v := by
  intro l
  induction l with
  | nil => intro h _; simp [List.lookup] at h
  | cons kv rest ih =>
    rcases kv with ⟨k, w⟩
    intro h hpred
    rw [lookup_cons_eq] at h
    by_cases hbe : (sid == k) = true
    · rw [if_pos hbe] at h
      injection h with hw
      have hk : sid = k := eq_of_beq hbe
      have hpkw : pred (k, w) = true := by rw [← hk, hw]; exact hpred
      rw [List.filter_cons, if_pos hpkw, lookup_cons_eq, if_pos hbe, hw]
    · rw [if_neg hbe] at h
      rw [List.filter_cons]
      by_cases hpk : pred (k, w) = true
      · rw [if_pos hpk, lookup_cons_eq, if_neg hbe]
        exact ih h hpred
      · rw [if_neg hpk]
        exact ih h hpred

theorem storeWF_gc (now : ℚ) (store : Store σ) (h : StoreWF store) :
    StoreWF (gcStore now store) :=
  fun p hp => h p (List.mem_of_mem_filter hp)

theorem storeWF_assocSet (store : Store σ) (sid : String) (v : PlaySession σ)
    (h : StoreWF store) (hv : SessionWF v) : StoreWF (assocSet store sid v) := by
  intro p hp
  rcases mem_assocSet p sid v store hp with h1 | h1
  · rw [h1]; exact hv
  · exact h p h1

/-- C7: on a well-formed store, every play-store operation preserves the
session invariant `t ≤ iterations ∧ len(history) = t`; moreover start
installs a session with `t = 0` and empty history, a successful step
increments `t` by one and appends exactly one event, log only refreshes
`last_access`, end only removes sessions, and reset zeroes `t` and clears
the history. -/
theorem store_ops_preserve_invariants (C : PyCtx σ) (now : ℚ) (store : Store σ)
    (hw : StoreWF store) :
    (∀ sid req, StoreWF (api_play_start C now sid store req).1 ∧
      List.lookup sid (api_play_start C now sid store req).1 =
        some { id := sid, env := make_env C req.env req.n_actions req.seed,
               iterations := req.iterations, t := 0, history := [],
               last_access := now, seed := req.seed }) ∧
    (∀ req, StoreWF (api_play_step C now store req).1) ∧
    (∀ req s ev d, List.lookup req.session_id store = some s →
      (api_play_step C now store req).2 = StepResp.ok ev d →
      ∃ env1, List.lookup req.session_id (api_play_step C now store req).1 =
        some { s with
          env := env1
          t := s.t + 1
          history := s.history ++ [ev]
          last_access := now }) ∧
    (∀ sid, StoreWF (api_play_log now store sid).1 ∧
      ∀ s, List.lookup sid store = some s →
        List.lookup sid (api_play_log now store sid).1 =
          some { s with last_access := now }) ∧
    (∀ sid, StoreWF (api_play_end now store sid).1 ∧
      ∀ p, p ∈ (api_play_end now store sid).1 → p ∈ store) ∧
    (∀ sid, StoreWF (api_play_reset now store sid).1 ∧
      ∀ s, List.lookup sid store = some s →
        List.lookup sid (api_play_reset now store sid).1 =
          some { s with t := 0, history := [], last_access := now }) := by
  have hfreshpred :
      ∀ s0 : PlaySession σ, s0.last_access = now →
        (fun p : String × PlaySession σ =>
          ! decide (now - p.2.last_access > PLAY_TTL)) ("x", s0) = true := by
    intro s0 hla
    have : ¬ (now - s0.last_access > PLAY_TTL) := by
      rw [hla, sub_self]
      rw [PLAY_TTL]
      norm_num
    simp [this]
  refine ⟨?start, ?stepWF, ?stepOk, ?log, ?end_, ?reset⟩
  case start =>
    intro sid req
    constructor
    · exact storeWF_gc now _ (storeWF_assocSet store sid _ hw
        ⟨Nat.zero_le _, rfl⟩)
    · show List.lookup sid (gcStore now (assocSet store sid _)) = _
      rw [gcStore]
      apply lookup_filter_of_pos
      · exact lookup_assocSet_self sid _ store
      · have hnot : ¬ (now - now > PLAY_TTL) := by
          rw [sub_self, PLAY_TTL]
          norm_num
        show (! decide (now - now > PLAY_TTL)) = true
        rw [decide_eq_false hnot]
        rfl
  case stepWF =>
    intro req
    rcases hl : List.lookup req.session_id store with _ | s0
    · simp [api_play_step, hl]
      exact hw
    · have hwf0 : SessionWF s0 := hw _ (lookup_mem _ _ _ hl)
      by_cases hcond : req.action < 0 ∨ ((s0.env.nActions : Int) ≤ req.action)
      · simp [api_play_step, hl, hcond]
        exact hw
      · by_cases hdone : s0.iterations ≤ s0.t
        · simp [api_play_step, hl, hcond, hdone]
          exact hw
        · rcases hstep : Env.step C s0.env req.action with ⟨res, env1⟩
          cases res with
          | error e =>
            simp [api_play_step, hl, hcond, hdone, hstep]
            exact storeWF_assocSet store _ _ hw ⟨hwf0.1, hwf0.2⟩
          | ok r =>
            simp [api_play_step, hl, hcond, hdone, hstep]
            refine storeWF_assocSet store _ _ hw ⟨?_, ?_⟩
            · simpa using Nat.succ_le_of_lt (not_le.mp hdone)
            · simp [hwf0.2]
  case stepOk =>
    intro req s ev d hs h2
    by_cases hcond : req.action < 0 ∨ ((s.env.nActions : Int) ≤ req.action)
    · rw [api_play_step] at h2
      simp [hs, hcond] at h2
    · by_cases hdone : s.iterations ≤ s.t
      · rw [api_play_step] at h2
        simp [hs, hcond, hdone] at h2
      · rcases hstep : Env.step C s.env req.action with ⟨res, env1⟩
        cases res with
        | error e =>
          rw [api_play_step] at h2
          simp [hs, hcond, hdone, hstep] at h2
        | ok r =>
          rw [api_play_step] at h2
          simp only [hs, if_neg hcond, if_neg hdone, hstep] at h2
          refine ⟨env1, ?_⟩
          rw [api_play_step]
          simp only [hs, if_neg hcond, if_neg hdone, hstep]
          injection h2 with hEV hD
          rw [← hEV]
          exact lookup_assocSet_self _ _ store
  case log =>
    intro sid
    constructor
    · rcases hl : List.lookup sid store with _ | s0
      · simp [api_play_log, hl]
        exact hw
      · have hwf0 : SessionWF s0 := hw _ (lookup_mem _ _ _ hl)
        simp [api_play_log, hl]
        exact storeWF_assocSet store _ _ hw ⟨hwf0.1, hwf0.2⟩
    · intro s hs
      simp [api_play_log, hs]
      exact lookup_assocSet_self _ _ store
  case end_ =>
    intro sid
    refine ⟨?_, ?_⟩
    · exact storeWF_gc now _ (fun p hp =>
        hw p ((List.eraseP_sublist store).subset hp))
    · intro p hp
      have hp1 : p ∈ store.eraseP (fun q => q.1 == sid) :=
        List.mem_of_mem_filter hp
      exact (List.eraseP_sublist store).subset hp1
  case reset =>
    intro sid
    constructor
    · rcases hl : List.lookup sid store with _ | s0
      · simp [api_play_reset, hl]
        exact hw
      · simp [api_play_reset, hl]
        exact storeWF_assocSet store _ _ hw ⟨Nat.zero_le _, rfl⟩
    · intro s hs
      simp [api_play_reset, hs]
      exact lookup_assocSet_self _ _ store

/-- Closed instance of the C7 theorem over the empty store. -/
theorem store_ops_preserve_invariants_witness :
    (∀ sid req, StoreWF (api_play_start natCtx 0 sid ([] : Store ℕ) req).1 ∧
      List.lookup sid (api_play_start natCtx 0 sid ([] : Store ℕ) req).1 =
        some { id := sid, env := make_env natCtx req.env req.n_actions req.seed,
               iterations := req.iterations, t := 0, history := [],
               last_access := 0, seed := req.seed }) ∧
    (∀ req, StoreWF (api_play_step natCtx 0 ([] : Store ℕ) req).1) ∧
    (∀ req s ev d, List.lookup req.session_id ([] : Store ℕ) = some s →
      (api_play_step natCtx 0 ([] : Store ℕ) req).2 = StepResp.ok ev d →
      ∃ env1, List.lookup req.session_id
          (api_play_step natCtx 0 ([] : Store ℕ) req).1 =
        some { s with
          env := env1
          t := s.t + 1
          history := s.history ++ [ev]
          last_access := 0 }) ∧
    (∀ sid, StoreWF (api_play_log 0 ([] : Store ℕ) sid).1 ∧
      ∀ s, List.lookup sid ([] : Store ℕ) = some s →
        List.lookup sid (api_play_log 0 ([] : Store ℕ) sid).1 =
          some { s with last_access := 0 }) ∧
    (∀ sid, StoreWF (api_play_end 0 ([] : Store ℕ) sid).1 ∧
      ∀ p, p ∈ (api_play_end 0 ([] : Store ℕ) sid).1 → p ∈ ([] : Store ℕ)) ∧
    (∀ sid, StoreWF (api_play_reset 0 ([] : Store ℕ) sid).1 ∧
      ∀ s, List.lookup sid ([] : Store ℕ) = some s →
        List.lookup sid (api_play_reset 0 ([] : Store ℕ) sid).1 =
          some { s with t := 0, history := [], last_access := 0 }) :=
  store_ops_preserve_invariants natCtx 0 ([] : Store ℕ)
    (fun p hp => absurd hp (List.not_mem_nil p))

theorem runPoliciesTick_len (C : PyCtx σ) (t : ℕ) :
    ∀ (env : Env σ) (algs : List (String × PolicyState σ))
      (traces : List (String × (List Int × List ℚ))) (warns : List String)
      (k : ℕ), algs.length = traces.length → TracesLen k traces →
      (runPoliciesTick C t env algs traces warns).2.1.length =
        (runPoliciesTick C t env algs traces warns).2.2.1.length ∧
      TracesLen (k + 1) (runPoliciesTick C t env algs traces warns).2.2.1 := by
  intro env algs
  induction algs generalizing env with
  | nil =>
    intro traces warns k hlen _
    have htr : traces = [] := List.eq_nil_of_length_eq_zero hlen.symm
    subst htr
    exact ⟨rfl, fun p hp => absurd hp (List.not_mem_nil p)⟩
  | cons nmst rest ih =>
    intro traces warns k hlen htl
    rcases nmst with ⟨name, st⟩
    rcases traces with _ | ⟨tr, trest⟩
    · simp at hlen
    · rcases htick : tickPolicy C env name t st with ⟨env1, st1, a, r, w⟩
      have hlen1 : rest.length = trest.length := by simpa using hlen
      have htl1 : TracesLen k trest := fun p hp => htl p (List.mem_cons_of_mem _ hp)
      have hhd := htl tr (List.mem_cons_self _ _)
      rcases w with _ | msg
      · have hsub := ih env1 trest warns k hlen1 htl1
        refine ⟨?_, ?_⟩
        · simp only [runPoliciesTick, htick]
          simpa using hsub.1
        · intro p hp
          simp only [runPoliciesTick, htick] at hp
          rcases List.mem_cons.mp hp with h1 | h1
          · rw [h1]
            constructor
            · simp [hhd.1]
            · simp [hhd.2]
          · exact hsub.2 p h1
      · have hsub := ih env1 trest (warns ++ [msg]) k hlen1 htl1
        refine ⟨?_, ?_⟩
        · simp only [runPoliciesTick, htick]
          simpa using hsub.1
        · intro p hp
          simp only [runPoliciesTick, htick] at hp
          rcases List.mem_cons.mp hp with h1 | h1
          · rw [h1]
            constructor
            · simp [hhd.1]
            · simp [hhd.2]
          · exact hsub.2 p h1

theorem runBatchFrom_len (C : PyCtx σ) :
    ∀ (iters t0 : ℕ) (env : Env σ) (algs : List (String × PolicyState σ))
      (traces : List (String × (List Int × List ℚ))) (warns : List String)
      (k : ℕ), algs.length = traces.length → TracesLen k traces →
      TracesLen (k + iters)
        (runBatchFrom C iters t0 env algs traces warns).2.2.1 := by
  intro iters
  induction iters with
  | zero =>
    intro t0 env algs traces warns k _ htl
    simpa [runBatchFrom] using htl
  | succ iters ih =>
    intro t0 env algs traces warns k hlen htl
    have htick := runPoliciesTick_len C t0 env algs traces warns k hlen htl
    have halgs : (runPoliciesTick C t0 env algs traces warns).2.1.length =
        (runPoliciesTick C t0 env algs traces warns).2.2.1.length := htick.1
    have hrec := ih (t0 + 1) (runPoliciesTick C t0 env algs traces warns).1
      (runPoliciesTick C t0 env algs traces warns).2.1
      (runPoliciesTick C t0 env algs traces warns).2.2.1
      (runPoliciesTick C t0 env algs traces warns).2.2.2
      (k + 1) halgs htick.2
    have harith : k + 1 + iters = k + (iters + 1) := by omega
    rw [harith] at hrec
    rw [runBatchFrom]
    rcases hres : runPoliciesTick C t0 env algs traces warns with
      ⟨env1, algs1, traces1, warns1⟩
    rw [hres] at hrec
    simpa using hrec

theorem initTraces_len (algs : List (String × PolicyState σ)) :
    algs.length = (initTraces algs).length ∧ TracesLen 0 (initTraces algs) := by
  constructor
  · simp [initTraces]
  · intro p hp
    rcases List.mem_map.mp hp with ⟨q, _, hq⟩
    rw [← hq]
    exact ⟨rfl, rfl⟩

theorem runBatch_traces_len (C : PyCtx σ) (iters : ℕ) (env : Env σ)
    (algs : List (String × PolicyState σ)) (warns0 : List String) :
    TracesLen iters
      (runBatchFrom C iters 0 env algs (initTraces algs) warns0).2.2.1 := by
  have h := runBatchFrom_len C iters 0 env algs (initTraces algs) warns0 0
    (initTraces_len algs).1 (initTraces_len algs).2
  simpa using h

/-- C4: in the plot batch loop, a policy whose `select_action` raises gets
`(action 0, reward 0.0)` substituted for that tick together with a recorded
warning, the environment and the failing policy are left as the exception
left them, and — since the loop structure still visits every policy on every
tick — every policy's actions and rewards lists end up with length exactly
`iterations`. -/
theorem batch_policy_error_isolated (C : PyCtx σ) (env : Env σ)
    (algs : List (String × PolicyState σ)) (iters : ℕ) (warns0 : List String) :
    (∀ nm acts rews,
      (nm, (acts, rews)) ∈
        (runBatchFrom C iters 0 env algs (initTraces algs) warns0).2.2.1 →
      acts.length = iters ∧ rews.length = iters) ∧
    (∀ (env0 : Env σ) nm t st e, policySelect C st = Except.error e →
      tickPolicy C env0 nm t st = (env0, st, 0, 0, some (warnMsg nm t e))) := by
  constructor
  · intro nm acts rews hmem
    exact runBatch_traces_len C iters env algs warns0 (nm, (acts, rews)) hmem
  · intro env0 nm t st e hsel
    rw [tickPolicy, hsel]

/-- Closed instance of the C4 theorem: a one-tick batch pairing a healthy
Greedy policy with a custom policy that always raises. -/
theorem batch_policy_error_isolated_witness :
    (([0] : List Int).length = 1 ∧ ([1] : List ℚ).length = 1) ∧
    tickPolicy natCtx c4Env "custom:bad" 0
        (.custom (customInit natCtx 2 none badEntry)) =
      (c4Env, .custom (customInit natCtx 2 none badEntry), 0, 0,
       some (warnMsg "custom:bad" 0
         ("Custom algorithm error at t=" ++ toString 0 ++ ": " ++ "boom"))) :=
  ⟨(batch_policy_error_isolated natCtx c4Env c4Algs 1 []).1 "greedy" [0] [1]
      (by decide),
   (batch_policy_error_isolated natCtx c4Env c4Algs 1 []).2 c4Env "custom:bad" 0
      (.custom (customInit natCtx 2 none badEntry))
      ("Custom algorithm error at t=" ++ toString 0 ++ ": " ++ "boom") rfl⟩

/-- C3: the plot simulation depends on its session only through the stored
seed, the environment parameter snapshot, and the stored horizon: two live
sessions agreeing on those three — whatever their current generator state,
tick counter, or history — produce identical plot responses for the same
request and resolver.  In particular two identical Plot requests against the
same unchanged session produce identical traces. -/
theorem plot_deterministic (C : PyCtx σ) (resolver : Resolver)
    (s1 s2 : PlaySession σ) (req : PlotReq)
    (hseed : s1.seed = s2.seed) (hinfo : s1.env.info = s2.env.info)
    (hiter : s1.iterations = s2.iterations) :
    plotCore C resolver s1 req = plotCore C resolver s2 req := by
  unfold plotCore
  rw [hseed, hinfo, hiter]

/-- Closed instance of the C3 theorem: two sessions with the same seed,
parameters and horizon but different generator positions, tick counters and
histories plot identically. -/
theorem plot_deterministic_witness :
    plotCore natCtx (fun _ => none) c3Session1
        { session_id := "s", algorithms := ["ucb1"], custom_algorithms := none,
          iterations := none } =
      plotCore natCtx (fun _ => none) c3Session2
        { session_id := "s", algorithms := ["ucb1"], custom_algorithms := none,
          iterations := none } :=
  plot_deterministic natCtx (fun _ => none) c3Session1 c3Session2
    { session_id := "s", algorithms := ["ucb1"], custom_algorithms := none,
      iterations := none } rfl rfl rfl

theorem summaryStep_foldl :
    ∀ (l : List ℚ), l ≠ [] → ∀ (c a0 : ℚ) (i : ℕ),
      l.foldl summaryStep (c, a0, i) =
        (c + l.sum, (c + l.sum) / ((i + l.length : ℕ) : ℚ), i + l.length) := by
  intro l
  induction l with
  | nil => intro h; exact absurd rfl h
  | cons x xs ih =>
    intro _ c a0 i
    rw [List.foldl_cons]
    have hstep : summaryStep (c, a0, i) x = (c + x, (c + x) / ((i + 1 : ℕ) : ℚ), i + 1) := rfl
    rw [hstep]
    by_cases hxs : xs = []
    · subst hxs
      simp only [List.foldl_nil, List.sum_cons, List.sum_nil, List.length_cons,
        List.length_nil]
      have h1 : c + x = c + (x + 0) := by ring
      have h2 : i + 1 = i + (0 + 1) := by omega
      rw [← h1, ← h2]
    · rw [ih hxs (c + x) _ (i + 1)]
      simp only [List.sum_cons, List.length_cons]
      have h1 : c + x + xs.sum = c + (x + xs.sum) := by ring
      have h2 : i + 1 + xs.length = i + (xs.length + 1) := by omega
      rw [h1, h2]

theorem summarize_eq_sum_div (l : List ℚ) (h : l ≠ []) :
    summarize l = (l.sum / (l.length : ℚ), l.sum / (l.length : ℚ)) := by
  match l, h with
  | x :: xs, _ =>
    show (((x :: xs).foldl summaryStep ((0 : ℚ), (0 : ℚ), (0 : ℕ))).1 /
        (((x :: xs).length : ℕ) : ℚ),
      ((x :: xs).foldl summaryStep ((0 : ℚ), (0 : ℚ), (0 : ℕ))).2.1) = _
    rw [summaryStep_foldl (x :: xs) (by simp) 0 0 0]
    show ((0 + (x :: xs).sum) / (((x :: xs).length : ℕ) : ℚ),
      (0 + (x :: xs).sum) / (((0 + (x :: xs).length : ℕ)) : ℚ)) = _
    rw [zero_add, Nat.zero_add]

theorem summarize_replicate_zero (k : ℕ) :
    summarize (List.replicate k (0 : ℚ)) = (0, 0) := by
  cases k with
  | zero => rfl
  | succ k =>
    rw [List.replicate_succ]
    rw [summarize_eq_sum_div (0 :: List.replicate k 0) (by simp)]
    rw [List.sum_cons, List.sum_replicate]
    simp

theorem plotCore_summary_eq (C : PyCtx σ) (resolver : Resolver)
    (s : PlaySession σ) (req : PlotReq) :
    (plotCore C resolver s req).summary =
      (plotCore C resolver s req).traces.map (fun p => (p.1, summarize p.2.2)) := by
  simp only [plotCore]
  split
  · show [("empty_trace", ((0 : ℚ), (0 : ℚ)))] =
      List.map (fun p => (p.1, summarize p.2.2))
        [("empty_trace",
          (List.map Int.ofNat
            (List.range (pyOrIterations req.iterations s.iterations).toNat),
           List.replicate (pyOrIterations req.iterations s.iterations).toNat
            (0 : ℚ)))]
    rw [List.map_cons, List.map_nil, summarize_replicate_zero]
  · rfl

/-- C9: for every policy trace produced by a plot run whose rewards list is
non-empty, the reported summary pairs the policy's name with
`(mean_reward, final_avg_reward)` both equal to the sum of the rewards
divided by the trace length. -/
theorem plot_summary_mean_eq_final (C : PyCtx σ) (resolver : Resolver)
    (s : PlaySession σ) (req : PlotReq) (nm : String)
    (acts : List Int) (rews : List ℚ)
    (hmem : (nm, (acts, rews)) ∈ (plotCore C resolver s req).traces)
    (hne : rews ≠ []) :
    (nm, (rews.sum / (rews.length : ℚ), rews.sum / (rews.length : ℚ))) ∈
      (plotCore C resolver s req).summary := by
  rw [plotCore_summary_eq]
  refine List.mem_map.mpr ⟨(nm, (acts, rews)), hmem, ?_⟩
  rw [summarize_eq_sum_div rews hne]

/-- Closed instance of the C9 theorem on a one-tick Greedy plot. -/
theorem plot_summary_mean_eq_final_witness :
    ("greedy", (([1] : List ℚ).sum / ((([1] : List ℚ).length : ℕ) : ℚ),
        ([1] : List ℚ).sum / ((([1] : List ℚ).length : ℕ) : ℚ))) ∈
      (plotCore natCtx (fun _ => none) c9Session
        { session_id := "s", algorithms := ["greedy"],
          custom_algorithms := none, iterations := none }).summary :=
  plot_summary_mean_eq_final natCtx (fun _ => none) c9Session
    { session_id := "s", algorithms := ["greedy"], custom_algorithms := none,
      iterations := none } "greedy" [0] [1] (by decide) (by decide)

theorem plotCore_iterations (C : PyCtx σ) (resolver : Resolver)
    (s : PlaySession σ) (req : PlotReq) :
    (plotCore C resolver s req).iterations =
      pyOrIterations req.iterations s.iterations := by
  simp only [plotCore]
  split
  · rfl
  · rfl

theorem plotCore_traces_len (C : PyCtx σ) (resolver : Resolver)
    (s : PlaySession σ) (req : PlotReq) (nm : String)
    (acts : List Int) (rews : List ℚ)
    (hmem : (nm, (acts, rews)) ∈ (plotCore C resolver s req).traces) :
    acts.length = (pyOrIterations req.iterations s.iterations).toNat ∧
    rews.length = (pyOrIterations req.iterations s.iterations).toNat := by
  simp only [plotCore] at hmem
  split at hmem
  · have hh := List.mem_singleton.mp hmem
    have h2 : acts = List.map Int.ofNat
        (List.range (pyOrIterations req.iterations s.iterations).toNat) := by
      have := congrArg (fun q => q.2.1) hh
      simpa using this
    have h3 : rews = List.replicate
        (pyOrIterations req.iterations s.iterations).toNat (0 : ℚ) := by
      have := congrArg (fun q => q.2.2) hh
      simpa using this
    rw [h2, h3]
    simp
  · exact runBatch_traces_len C _ _ _ _ (nm, (acts, rews)) hmem

/-- C10: a Plot request whose `iterations` field is 0 is treated exactly like
an absent field — Python's `or` falls through on 0 — so the simulator runs
for the session's stored horizon: the response's `iterations` equals the
session's, and every trace has the session's `iterations` as its length. -/
theorem plot_zero_iterations_uses_session (C : PyCtx σ) (resolver : Resolver)
    (store : Store σ) (req : PlotReq) (s : PlaySession σ)
    (hs : List.lookup req.session_id store = some s)
    (hz : req.iterations = some 0) :
    (api_plot C resolver store req).2 = some (plotCore C resolver s req) ∧
    (plotCore C resolver s req).iterations = (s.iterations : Int) ∧
    (∀ nm acts rews,
      (nm, (acts, rews)) ∈ (plotCore C resolver s req).traces →
      acts.length = s.iterations ∧ rews.length = s.iterations) := by
  have hpy : pyOrIterations req.iterations s.iterations = (s.iterations : Int) := by
    rw [hz]
    simp [pyOrIterations]
  refine ⟨?_, ?_, ?_⟩
  · simp [api_plot, hs]
  · rw [plotCore_iterations, hpy]
  · intro nm acts rews hmem
    have h := plotCore_traces_len C resolver s req nm acts rews hmem
    rw [hpy] at h
    simpa using h

/-- Closed instance of the C10 theorem: `iterations = 0` in the request, a
stored horizon of 2. -/
theorem plot_zero_iterations_uses_session_witness :
    (api_plot natCtx (fun _ => none) c10Store c10Req).2 =
      some (plotCore natCtx (fun _ => none) c10Session c10Req) ∧
    (plotCore natCtx (fun _ => none) c10Session c10Req).iterations =
      (c10Session.iterations : Int) ∧
    (∀ nm acts rews,
      (nm, (acts, rews)) ∈
        (plotCore natCtx (fun _ => none) c10Session c10Req).traces →
      acts.length = c10Session.iterations ∧
      rews.length = c10Session.iterations) :=
  plot_zero_iterations_uses_session natCtx (fun _ => none) c10Store c10Req
    c10Session rfl rfl

end Bandit
